import Mathlib

/-!
Verification development for the `ebus_mask_maker` repository
(`napari_usg_masker`): a napari plugin that paints per-frame integer label
masks over an ultrasound video and serializes them to JSON / PNG / NPY.

The shallow embedding below translates the state and the operations of
`src/napari_usg_masker/_widget.py` (class `USGMaskerWidget`) and
`src/napari_usg_masker/_reader.py` (`napari_get_reader`) into Lean.

Modelling conventions:
* a numpy 2D `uint16` array is a `List (List Nat)` of its rows; the
  `uint16` cast of `np.array(lst, dtype=np.uint16)` is `% 65536` on every
  element, and `np.array` of a ragged nested list raises, modelled by
  `parseMask` returning `none`;
* the Python dict `self.current_masks : {frame_index: mask}` is an
  association list with dict-assignment semantics (`storeInsert` replaces
  the value of an existing key in place, otherwise appends);
* `str(frame_idx)` / `int(frame_idx_str)` on JSON object keys are modelled
  by the little-endian decimal digit list `Nat.digits 10` and its left
  inverse `parseKey` (`Nat.ofDigits 10` on valid digit lists);
* Qt widgets, message boxes, progress bars and the napari viewer layers are
  presentation only and are not part of the state; the napari labels layer
  data (`self.mask_layer.data`) is retained as `mask_layer : Option Mask`
  because the widget reads it back into the store;
* a Python `try/except` around an action body is modelled by returning the
  (possibly partially mutated) state together with a `Bool` success flag:
  the exception is caught at the boundary, so the partial state survives;
* file writes during bulk export are recorded as an `Artifact` list;
  a mid-loop exception yields `none` (the claims below only concern the
  artifacts of a successful export).
-/

namespace UsgMasker

/-- A 2D array of label values (rows of a numpy `uint16` array). -/
abbrev Mask := List (List Nat)

/-- The sparse store `self.current_masks : {frame_index: mask_array}`. -/
abbrev MaskStore := List (Nat × Mask)

/-- One entry of `self.labels_config`: `{'value': int, 'color': [r,g,b,a]}`. -/
structure LabelEntry where
  value : Nat
  color : List Nat
deriving DecidableEq, Repr

/-- `self.labels_config : {name: {'value': ..., 'color': ...}}` (ordered dict). -/
abbrev LabelsConfig := List (String × LabelEntry)

/-- Dict lookup `store[i]` / `i in store` (first matching key). -/
def storeLookup : MaskStore → Nat → Option Mask
  | [], _ => none
  | p :: rest, i => if p.1 = i then some p.2 else storeLookup rest i

/-- Dict assignment `store[i] = m`: replace in place, else append. -/
def storeInsert : MaskStore → Nat → Mask → MaskStore
  | [], i, m => [(i, m)]
  | p :: rest, i, m => if p.1 = i then (i, m) :: rest else p :: storeInsert rest i m

/-- `list(store.keys())`. -/
def storeKeys (s : MaskStore) : List Nat := s.map Prod.fst

/-- `np.zeros(frame_shape, dtype=np.uint16)` for the shape of a given 2D array. -/
def zeroMaskOf (f : Mask) : Mask := f.map (fun row => row.map (fun _ => 0))

/-- The mask has numpy shape `(H, W)`. -/
def hasShape (m : Mask) (H W : Nat) : Prop :=
  m.length = H ∧ ∀ row ∈ m, row.length = W

instance (m : Mask) (H W : Nat) : Decidable (hasShape m H W) :=
  inferInstanceAs (Decidable (m.length = H ∧ ∀ row ∈ m, row.length = W))

/-- The `DEFAULT_LABELS` class attribute of `USGMaskerWidget` (the three
labels that are not commented out in the source). -/
def DEFAULT_LABELS : LabelsConfig :=
  [("background", ⟨0, [0, 0, 0, 255]⟩),
   ("metastatic_lymph_node", ⟨1, [255, 0, 0, 255]⟩),
   ("clean_lymph_node", ⟨2, [0, 255, 0, 255]⟩)]

/-- The in-memory state of `USGMaskerWidget` that the claims are about:
`current_video` (the decoded grayscale frames), `current_masks`,
`current_frame`, `total_frames`, `labels_config`, and the data of the
napari labels layer (`mask_layer`). -/
structure WState where
  current_video : Option (List Mask)
  current_masks : MaskStore
  current_frame : Nat
  total_frames : Nat
  labels_config : LabelsConfig
  mask_layer : Option Mask
deriving DecidableEq, Repr

/-- The recurring snippet `self.current_masks[self.current_frame] =
self.mask_layer.data.copy()` guarded by `if self.mask_layer ...`
(`on_mask_changed`, and the save-before-switch code in `change_frame`,
`prev_frame`, `next_frame`, `load_video`). -/
def persistMask (st : WState) : WState :=
  match st.mask_layer with
  | some m => { st with current_masks := storeInsert st.current_masks st.current_frame m }
  | none => st

/-- `create_new_mask` (lines 395-444): returns unchanged (a warning) when no
video is loaded; otherwise reuses the stored mask of the current frame or
inserts a fresh zero mask of the current frame's shape, and (re)creates the
labels layer with that data. `self.current_video[self.current_frame]` is
modelled with `List.getD`; the theorems only use it with an in-bounds
cursor, where the Python indexing succeeds. -/
def create_new_mask (st : WState) : WState :=
  match st.current_video with
  | none => st
  | some video =>
    let frame := video.getD st.current_frame []
    match storeLookup st.current_masks st.current_frame with
    | some m => { st with mask_layer := some m }
    | none =>
      let z := zeroMaskOf frame
      { st with
          current_masks := storeInsert st.current_masks st.current_frame z,
          mask_layer := some z }

/-- `change_frame` (lines 471-488): no-op without a video; otherwise saves
the layer data into the store, moves the cursor and rebuilds the mask
display via `create_new_mask`. -/
def change_frame (st : WState) (i : Nat) : WState :=
  match st.current_video with
  | none => st
  | some _ => create_new_mask { persistMask st with current_frame := i }

/-- `prev_frame` (lines 490-497): guarded by `current_frame > 0`; the
`frame_slider.setValue` call fires `change_frame` on the new index. -/
def prev_frame (st : WState) : WState :=
  if 0 < st.current_frame then change_frame (persistMask st) (st.current_frame - 1)
  else st

/-- `next_frame` (lines 499-506): guarded by
`current_frame < total_frames - 1`. -/
def next_frame (st : WState) : WState :=
  if st.current_frame < st.total_frames - 1 then
    change_frame (persistMask st) (st.current_frame + 1)
  else st

/-- A slider-driven frame change: Qt clamps the slider value to the range
`[0, total_frames - 1]` set in `load_video`, then `valueChanged` fires
`change_frame`. -/
def set_slider (st : WState) (v : Nat) : WState :=
  change_frame st (min v (st.total_frames - 1))

/-- The user-triggered frame navigation operations of the widget. -/
inductive NavOp where
  | prev
  | next
  | slider (v : Nat)
deriving DecidableEq, Repr

/-- Dispatch one navigation operation. -/
def applyNav (st : WState) : NavOp → WState
  | NavOp.prev => prev_frame st
  | NavOp.next => next_frame st
  | NavOp.slider v => set_slider st v

/-- A sequence of navigation operations. -/
def navRun (st : WState) (ops : List NavOp) : WState := ops.foldl applyNav st

/-- `clear_current_mask` (lines 541-556), `Yes` branch: store a zero mask
for the current frame and rebuild the display. -/
def clear_current_mask (st : WState) : WState :=
  match st.current_video with
  | none => st
  | some video =>
    create_new_mask
      { st with
          current_masks :=
            storeInsert st.current_masks st.current_frame
              (zeroMaskOf (video.getD st.current_frame [])) }

/-- `copy_from_previous` (lines 516-527): copy the stored mask of
`current_frame - 1` onto the current frame, then rebuild the display;
warnings (frame 0, missing source mask) leave the state unchanged. -/
def copy_from_previous (st : WState) : WState :=
  if 0 < st.current_frame then
    match storeLookup st.current_masks (st.current_frame - 1) with
    | some m =>
      create_new_mask
        { st with current_masks := storeInsert st.current_masks st.current_frame m }
    | none => st
  else st

/-- `copy_to_next` (lines 529-539): copy the stored mask of the current
frame onto `current_frame + 1` (no display rebuild). -/
def copy_to_next (st : WState) : WState :=
  if st.current_frame < st.total_frames - 1 then
    match storeLookup st.current_masks st.current_frame with
    | some m =>
      { st with current_masks := storeInsert st.current_masks (st.current_frame + 1) m }
    | none => st
  else st

/-- The store-mutating operations of the widget other than `load_masks`
(`create_new_mask`, `clear_current_mask`, the two copies, the
paint-handler `on_mask_changed`, and frame navigation). -/
inductive MaskOp where
  | create
  | clear
  | copyPrev
  | copyNext
  | paint
  | nav (op : NavOp)
deriving DecidableEq, Repr

/-- Dispatch one store-mutating operation. -/
def applyMaskOp (st : WState) : MaskOp → WState
  | MaskOp.create => create_new_mask st
  | MaskOp.clear => clear_current_mask st
  | MaskOp.copyPrev => copy_from_previous st
  | MaskOp.copyNext => copy_to_next st
  | MaskOp.paint => persistMask st
  | MaskOp.nav op => applyNav st op

/-! ### JSON persistence (`save_masks` / `load_masks` / `load_label_config`) -/

/-- The parts of the saved JSON document that `load_masks` reads back:
`labels_config` and `masks` (an object whose keys are decimal frame-index
strings and whose values are nested integer lists). `video_info` and
`metadata` are written by `save_masks` but never read back, so they are
not represented. A missing field models a document without that key. -/
structure MaskDoc where
  labels_config : Option LabelsConfig
  masks : Option (List (List Nat × List (List Nat)))
deriving DecidableEq, Repr

/-- The document `save_masks` (lines 618-660) serializes: the label registry
verbatim and `{str(frame_idx): mask.tolist()}` for every store entry. -/
def save_doc (st : WState) : MaskDoc :=
  { labels_config := some st.labels_config,
    masks := some (st.current_masks.map (fun p => (Nat.digits 10 p.1, p.2))) }

/-- `save_masks`: refuses with a warning when the store is empty
(`if not self.current_masks`), otherwise writes `save_doc`. -/
def save_masks (st : WState) : Option MaskDoc :=
  if st.current_masks.isEmpty then none else some (save_doc st)

/-- The value of a little-endian decimal digit list. -/
def ofDecimalDigits : List Nat → Nat
  | [] => 0
  | d :: ds => d + 10 * ofDecimalDigits ds

/-- `int(frame_idx_str)`: succeeds on decimal digit strings. -/
def parseKey (ds : List Nat) : Option Nat :=
  if ds.all (fun d => d < 10) then some (ofDecimalDigits ds) else none

/-- All rows of the nested list have the first row's length (`np.array`
of a ragged nested list raises). -/
def rectangular (p : List (List Nat)) : Bool :=
  match p with
  | [] => true
  | r :: rs => (r :: rs).all (fun row => row.length == r.length)

/-- Element-wise `uint16` cast. -/
def toUint16 (p : List (List Nat)) : Mask := p.map (List.map (fun x => x % 65536))

/-- `np.array(mask_list, dtype=np.uint16)`: a rectangular nested list gives
the element-wise `uint16` array, a ragged one raises. -/
def parseMask (p : List (List Nat)) : Option Mask :=
  if rectangular p then some (toUint16 p) else none

/-- The mask-loading loop of `load_masks` (lines 684-688), starting from the
fresh dict `self.current_masks = {}` passed in as `acc`. A failing entry
(bad key or ragged array) raises: the loop stops and the partially filled
dict is what the (caught) exception leaves behind, flagged `false`. -/
def loadEntries : List (List Nat × List (List Nat)) → MaskStore → MaskStore × Bool
  | [], acc => (acc, true)
  | (k, p) :: rest, acc =>
    match parseKey k with
    | none => (acc, false)
    | some i =>
      match parseMask p with
      | none => (acc, false)
      | some m => loadEntries rest (storeInsert acc i m)

/-- The tail of `load_masks`: `if self.mask_layer: self.create_new_mask()`. -/
def finish_load (st : WState) : WState × Bool :=
  match st.mask_layer with
  | some _ => (create_new_mask st, true)
  | none => (st, true)

/-- `load_masks` (lines 662-704). `none` models a file the `json.load` of
which raises (nothing was mutated yet). Otherwise the labels registry is
replaced first (when the key is present), then the store is rebuilt from
the document's `masks`; an exception in that loop is caught at the action
boundary with the partial mutations kept. On success the display is
rebuilt, which runs `create_new_mask` when a mask layer is active. -/
def load_masks (st : WState) (doc : Option MaskDoc) : WState × Bool :=
  match doc with
  | none => (st, false)
  | some d =>
    let st1 :=
      match d.labels_config with
      | some L => { st with labels_config := L }
      | none => st
    match d.masks with
    | none => finish_load st1
    | some entries =>
      let r := loadEntries entries []
      if r.2 then finish_load { st1 with current_masks := r.1 }
      else ({ st1 with current_masks := r.1 }, false)

/-- `load_label_config` (lines 846-876): `none` models an unreadable or
malformed file (caught, nothing mutated); otherwise the registry read from
the document (its `labels_config` key, or the whole document) replaces the
current one. -/
def load_label_config (st : WState) (doc : Option LabelsConfig) : WState × Bool :=
  match doc with
  | none => (st, false)
  | some L => ({ st with labels_config := L }, true)

/-- The first half of `load_video`'s successful path: the best-effort
persistence of the current layer data into the in-memory store (lines
323-324), followed by the reset of lines 366-371 — the prior video, store,
cursor and layer are all replaced. -/
def discard_state (st : WState) (v : List Mask) : WState :=
  let st1 := if st.mask_layer.isSome && st.current_video.isSome then persistMask st else st
  { st1 with
      current_video := some v,
      total_frames := v.length,
      current_frame := 0,
      current_masks := [],
      mask_layer := none }

/-- `load_video` (lines 307-393), successful path for a decoded frame list
`v`. After `discard_state`, the slider updates of lines 374-375 run with
`valueChanged` still wired to `change_frame`; the slider value equals the
prior cursor (they are kept in sync by `change_frame`):
`frame_slider.setMaximum(total_frames - 1)` clamps the slider value into
the new range and fires `change_frame (v.length - 1)` exactly when the
prior cursor exceeds the new maximum, and `frame_slider.setValue(0)` fires
`change_frame 0` exactly when the (possibly clamped) slider value
`min cursor (v.length - 1)` is nonzero. Finally `create_new_mask`
initializes the mask layer of frame 0 (line 385). -/
def load_video (st : WState) (v : List Mask) : WState :=
  let st2 := discard_state st v
  let st3 := if v.length - 1 < st.current_frame then change_frame st2 (v.length - 1) else st2
  let st4 := if min st.current_frame (v.length - 1) ≠ 0 then change_frame st3 0 else st3
  create_new_mask st4

/-- `add_custom_label` (lines 558-588). The user supplies a name and picks a
color; the value is auto-assigned as `max(existing values) + 1`. An empty
name or a cancelled name dialog returns; an existing name warns and
returns; on an empty registry the Python `max()` raises before any
mutation; a cancelled color dialog (`colorValid = false`) also leaves the
registry unchanged. -/
def maxLabelValue (cfg : LabelsConfig) : Nat :=
  (cfg.map (fun p => p.2.value)).foldl max 0

/-- The registry after an `add_custom_label` attempt (`cfg.isEmpty` is the
case where the Python `max()` raises before any mutation). -/
def add_custom_label (cfg : LabelsConfig) (name : String) (colorValid : Bool)
    (rgb : List Nat) : LabelsConfig :=
  if name = "" then cfg
  else if cfg.any (fun p => p.1 == name) then cfg
  else if cfg.isEmpty then cfg
  else if colorValid then cfg ++ [(name, ⟨maxLabelValue cfg + 1, rgb ++ [255]⟩)]
  else cfg

/-! ### Bulk export (`export_frames_and_masks_png_npy`, lines 745-844) -/

/-- One file written by the bulk export loop, tagged by frame index. -/
inductive Artifact where
  | framePng (i : Nat)
  | frameNpy (i : Nat)
  | maskRawPng (i : Nat)
  | maskColorPng (i : Nat)
  | maskNpy (i : Nat)
deriving DecidableEq, Repr

/-- Boolean version of `hasShape` used by the export model. -/
def hasShapeB (m : Mask) (H W : Nat) : Bool :=
  m.length == H && m.all (fun row => row.length == W)

/-- Iteration `i` of the export loop (lines 794-818): the frame PNG and NPY
are always written; when `i in self.current_masks` the raw PNG, colorized
PNG and NPY of the mask follow. `masks_stack[i] = mask` requires the stored
mask to have the frame shape `(H, W)`, otherwise numpy raises and the
export fails (`none`). Degenerate numpy broadcasts of differently-shaped
masks are not modelled; the theorems below use this definition only where
shapes match exactly or no mask is present. -/
def exportStep (store : MaskStore) (H W : Nat) (i : Nat) : Option (List Artifact) :=
  match storeLookup store i with
  | none => some [Artifact.framePng i, Artifact.frameNpy i]
  | some m =>
    if hasShapeB m H W then
      some [Artifact.framePng i, Artifact.frameNpy i,
            Artifact.maskRawPng i, Artifact.maskColorPng i, Artifact.maskNpy i]
    else none

/-- The artifacts of `for i in range(T)`: frames `0 .. n-1` processed in
order; a raised iteration aborts the loop (the artifacts already on disk
are not represented for a failed export — the claims only quantify over
successful exports). -/
def exportLoop (store : MaskStore) (H W : Nat) : Nat → Option (List Artifact)
  | 0 => some []
  | n + 1 =>
    match exportLoop store H W n, exportStep store H W n with
    | some acc, some step => some (acc ++ step)
    | _, _ => none

/-- The `masks_stack` array (lines 789, 804-806): initialized to
`np.zeros((T, H, W), dtype=np.uint16)` and overwritten at each index that
is a key of the store (each index is assigned at most once, so the
zeros-then-assign loop equals this per-index expression). -/
def masksStack (store : MaskStore) (T H W : Nat) : List Mask :=
  (List.range T).map (fun i =>
    match storeLookup store i with
    | some m => toUint16 m
    | none => List.replicate H (List.replicate W 0))

/-! ### The reader hook (`_reader.py`, `napari_get_reader`, lines 12-57) -/

/-- The argument of `napari_get_reader`: a single path string or a list. -/
inductive PathArg where
  | single (p : String)
  | many (ps : List String)
deriving DecidableEq, Repr

/-- Split a character list on a separator. -/
def splitChar (sep : Char) : List Char → List (List Char)
  | [] => [[]]
  | c :: cs =>
    match splitChar sep cs with
    | [] => [[]]
    | g :: gs => if c = sep then [] :: g :: gs else (c :: g) :: gs

/-- `pathlib.Path(p).name`: the last nonempty `/`-separated component. -/
def pathNameChars (p : String) : List Char :=
  (splitChar '/' p.toList).foldl (fun acc c => if c.isEmpty then acc else c) []

/-- Index of the last `.` in a character list (`str.rfind`). -/
def lastDotIdx : List Char → Option Nat
  | [] => none
  | c :: cs =>
    match lastDotIdx cs with
    | some i => some (i + 1)
    | none => if c = '.' then some 0 else none

/-- `pathlib.Path(p).suffix`: the part of the name from its last dot,
provided that dot is neither the first nor the last character. -/
def pathSuffixChars (p : String) : List Char :=
  let name := pathNameChars p
  match lastDotIdx name with
  | some i => if 0 < i ∧ i + 1 < name.length then name.drop i else []
  | none => []

/-- `str.lower`, character-wise. -/
def lowerChars (cs : List Char) : List Char := cs.map Char.toLower

/-- `path.suffix.lower() == '.json'`. -/
def isJsonSuffix (p : String) : Bool :=
  lowerChars (pathSuffixChars p) == ".json".toList

/-- `needle in haystack` for strings (substring containment). -/
def containsSub (needle : List Char) : List Char → Bool
  | [] => needle.isEmpty
  | c :: rest => needle.isPrefixOf (c :: rest) || containsSub needle rest

/-- The keyword test of lines 41-43 on the lowercased file name. -/
def hasMaskKeyword (p : String) : Bool :=
  ["mask", "usg", "label", "annotation"].any
    (fun k => containsSub k.toList (lowerChars (pathNameChars p)))

/-- `napari_get_reader`. `probe` abstracts the filesystem peek of lines
46-55: `none` is an unreadable or malformed JSON file, `some b` a parsed
one with `b` recording `isinstance(data, dict) and 'masks' in data and
'labels_config' in data`. The result `some ()` stands for the returned
`read_mask_data` function, `none` for Python's `None`. -/
def napari_get_reader (probe : String → Option Bool) (arg : PathArg) : Option Unit :=
  let path? : Option String :=
    match arg with
    | PathArg.single p => some p
    | PathArg.many ps =>
      match ps with
      | [p] => some p
      | _ => none
  match path? with
  | none => none
  | some p =>
    if isJsonSuffix p then
      if hasMaskKeyword p then some ()
      else
        match probe p with
        | some true => some ()
        | _ => none
    else none

/-! ### Concrete instances used by witnesses and counterexamples -/

/-- A loaded two-frame video of 1x1 frames, cursor at 0, fresh mask. -/
def stNav : WState :=
  { current_video := some [[[4]], [[5]]],
    current_masks := [(0, [[0]])],
    current_frame := 0,
    total_frames := 2,
    labels_config := DEFAULT_LABELS,
    mask_layer := some [[0]] }

/-- A store whose only key (frame 1) lies outside a one-frame video. -/
def storeGap : MaskStore := [(1, [[0]])]

/-- A store with a single 1x1 mask at frame 0. -/
def storeExp : MaskStore := [(0, [[7]])]

/-- The artifacts of exporting `storeExp` over a two-frame 1x1 video. -/
def artsExp : List Artifact :=
  [Artifact.framePng 0, Artifact.frameNpy 0, Artifact.maskRawPng 0,
   Artifact.maskColorPng 0, Artifact.maskNpy 0,
   Artifact.framePng 1, Artifact.frameNpy 1]

/-- The spec's example store: `{0: zeros(5,5), 2: ones(5,5)}`. -/
def storeStack : MaskStore :=
  [(0, List.replicate 5 (List.replicate 5 0)),
   (2, List.replicate 5 (List.replicate 5 1))]

/-- A loaded two-frame video with a mask stored only for frame 0, while the
cursor (with an active mask layer) sits on frame 1. -/
def st1cx : WState :=
  { current_video := some [[[5]], [[6]]],
    current_masks := [(0, [[3]])],
    current_frame := 1,
    total_frames := 2,
    labels_config := DEFAULT_LABELS,
    mask_layer := some [[0]] }

/-- A loaded one-frame video whose only mask (frame 0) is under the cursor. -/
def st1w : WState :=
  { current_video := some [[[5]]],
    current_masks := [(0, [[3]])],
    current_frame := 0,
    total_frames := 1,
    labels_config := DEFAULT_LABELS,
    mask_layer := some [[3]] }

/-- A loaded one-frame video with one stored mask and no active layer. -/
def st4cx : WState :=
  { current_video := some [[[0]]],
    current_masks := [(0, [[1]])],
    current_frame := 0,
    total_frames := 1,
    labels_config := DEFAULT_LABELS,
    mask_layer := none }

/-- A mask document with a parseable label registry and a ragged (hence
unparseable) mask entry for frame 1. -/
def doc4cx : MaskDoc :=
  { labels_config := some [("background", ⟨0, [0, 0, 0, 255]⟩)],
    masks := some [([1], [[1, 2], [3]])] }

/-- A loaded one-frame video with a prior mask and an active layer, about
to be replaced by a new video. -/
def st8w : WState :=
  { current_video := some [[[1]]],
    current_masks := [(0, [[9]])],
    current_frame := 0,
    total_frames := 1,
    labels_config := DEFAULT_LABELS,
    mask_layer := some [[7]] }

/-- A loaded three-frame video with the cursor on its last frame, about to
be replaced by a shorter video (so the slider clamp refires). -/
def st8b : WState :=
  { current_video := some [[[1]], [[2]], [[3]]],
    current_masks := [(2, [[9]])],
    current_frame := 2,
    total_frames := 3,
    labels_config := DEFAULT_LABELS,
    mask_layer := some [[7]] }

/-- A loaded one-frame video with an empty store and no layer (the state
right before the first `change_frame`). -/
def st9w : WState :=
  { current_video := some [[[0]]],
    current_masks := [],
    current_frame := 0,
    total_frames := 1,
    labels_config := DEFAULT_LABELS,
    mask_layer := none }

/-- The shape invariant of a video-loaded state with common frame shape
`(H, W)`: a video is loaded with matching `total_frames` and uniformly
shaped frames, the cursor is in bounds, and every stored mask and the
active layer data have the frame shape. (All frames of a decoded video
share one shape, so "mask for frame `i` has the shape of frame `i`" is
"mask has shape `(H, W)`".) -/
def Inv (st : WState) (H W : Nat) : Prop :=
  (∃ v, st.current_video = some v ∧ st.total_frames = v.length ∧
    ∀ f ∈ v, hasShape f H W) ∧
  st.current_frame < st.total_frames ∧
  (∀ i m, storeLookup st.current_masks i = some m → hasShape m H W) ∧
  (∀ m, st.mask_layer = some m → hasShape m H W)

/-- A loaded one-frame video of 1x1 frames with a matching zero mask. -/
def st5cx : WState :=
  { current_video := some [[[5]]],
    current_masks := [(0, [[0]])],
    current_frame := 0,
    total_frames := 1,
    labels_config := DEFAULT_LABELS,
    mask_layer := none }

/-- A mask document carrying a well-formed 2x2 mask for frame 0. -/
def doc5cx : MaskDoc :=
  { labels_config := none,
    masks := some [([], [[1, 2], [3, 4]])] }

end UsgMasker

namespace UsgMasker

/-! ### Association list (Python dict) lemmas -/

theorem storeLookup_insert (s : MaskStore) (k : Nat) (m : Mask) (i : Nat) :
    storeLookup (storeInsert s k m) i = if k = i then some m else storeLookup s i := by
  induction s with
  | nil =>
    by_cases h : k = i <;> simp [storeInsert, storeLookup, h]
  | cons p rest ih =>
    by_cases hp : p.1 = k
    · by_cases h : k = i <;> simp [storeInsert, storeLookup, hp, h]
    · simp only [storeInsert, if_neg hp]
      by_cases h : p.1 = i
      · have : ¬ k = i := fun hk => hp (hk ▸ h)
        simp [storeLookup, h, this]
      · simp [storeLookup, h, ih]

theorem storeLookup_insert_self (s : MaskStore) (k : Nat) (m : Mask) :
    storeLookup (storeInsert s k m) k = some m := by
  simp [storeLookup_insert]

theorem storeLookup_mem {s : MaskStore} {i : Nat} {m : Mask}
    (h : storeLookup s i = some m) : (i, m) ∈ s := by
  induction s with
  | nil => simp [storeLookup] at h
  | cons p rest ih =>
    simp only [storeLookup] at h
    split at h
    · next heq =>
      obtain rfl := Option.some_inj.mp h
      obtain ⟨a, b⟩ := p
      simp only at heq
      subst heq
      exact List.mem_cons_self _ _
    · exact List.mem_cons_of_mem _ (ih h)

theorem storeLookup_eq_none {s : MaskStore} {i : Nat}
    (h : i ∉ storeKeys s) : storeLookup s i = none := by
  induction s with
  | nil => rfl
  | cons p rest ih =>
    simp only [storeKeys, List.map_cons, List.mem_cons, not_or] at h
    have hne : ¬ p.1 = i := fun hp => h.1 hp.symm
    simp only [storeLookup, if_neg hne]
    exact ih h.2

theorem storeLookup_append (a b : MaskStore) (i : Nat) :
    storeLookup (a ++ b) i =
      match storeLookup a i with
      | some m => some m
      | none => storeLookup b i := by
  induction a with
  | nil => simp [storeLookup]
  | cons p rest ih =>
    by_cases hp : p.1 = i <;> simp [storeLookup, hp, ih]

theorem storeInsert_append_of_lookup_none {s : MaskStore} {k : Nat}
    (h : storeLookup s k = none) (m : Mask) : storeInsert s k m = s ++ [(k, m)] := by
  induction s with
  | nil => rfl
  | cons p rest ih =>
    by_cases hp : p.1 = k
    · simp [storeLookup, hp] at h
    · simp only [storeLookup, if_neg hp] at h
      simp [storeInsert, hp, ih h]

/-! ### Field-preservation lemmas for the widget operations -/

theorem persistMask_fields (st : WState) :
    (persistMask st).current_frame = st.current_frame ∧
    (persistMask st).total_frames = st.total_frames ∧
    (persistMask st).current_video = st.current_video ∧
    (persistMask st).mask_layer = st.mask_layer ∧
    (persistMask st).labels_config = st.labels_config := by
  cases h : st.mask_layer <;> simp [persistMask, h]

theorem create_new_mask_fields (st : WState) :
    (create_new_mask st).current_frame = st.current_frame ∧
    (create_new_mask st).total_frames = st.total_frames ∧
    (create_new_mask st).current_video = st.current_video ∧
    (create_new_mask st).labels_config = st.labels_config := by
  cases hv : st.current_video with
  | none => simp [create_new_mask, hv]
  | some v =>
    cases hl : storeLookup st.current_masks st.current_frame <;>
      simp [create_new_mask, hv, hl]

theorem change_frame_fields (st : WState) (i : Nat) :
    (change_frame st i).total_frames = st.total_frames ∧
    (change_frame st i).current_video = st.current_video ∧
    (change_frame st i).labels_config = st.labels_config := by
  cases hv : st.current_video with
  | none => simp [change_frame, hv]
  | some v =>
    have hp := persistMask_fields st
    have hc := create_new_mask_fields { persistMask st with current_frame := i }
    simp only [change_frame, hv]
    refine ⟨?_, ?_, ?_⟩
    · rw [hc.2.1]; exact hp.2.1
    · rw [hc.2.2.1]; exact hp.2.2.1.trans hv
    · rw [hc.2.2.2]; exact hp.2.2.2.2

theorem change_frame_cursor {st : WState} {v : List Mask}
    (hv : st.current_video = some v) (i : Nat) :
    (change_frame st i).current_frame = i := by
  have hc := create_new_mask_fields { persistMask st with current_frame := i }
  simp only [change_frame, hv]
  exact hc.1

theorem applyNav_total_frames (st : WState) (op : NavOp) :
    (applyNav st op).total_frames = st.total_frames := by
  cases op with
  | prev =>
    by_cases h : 0 < st.current_frame
    · simp only [applyNav, prev_frame, if_pos h]
      rw [(change_frame_fields _ _).1, (persistMask_fields st).2.1]
    · simp [applyNav, prev_frame, h]
  | next =>
    by_cases h : st.current_frame < st.total_frames - 1
    · simp only [applyNav, next_frame, if_pos h]
      rw [(change_frame_fields _ _).1, (persistMask_fields st).2.1]
    · simp [applyNav, next_frame, h]
  | slider v =>
    simp only [applyNav, set_slider]
    exact (change_frame_fields _ _).1

theorem applyNav_cursor_lt {st : WState} (op : NavOp)
    (h0 : 0 < st.total_frames) (h1 : st.current_frame < st.total_frames) :
    (applyNav st op).current_frame < (applyNav st op).total_frames := by
  rw [applyNav_total_frames]
  cases op with
  | prev =>
    by_cases h : 0 < st.current_frame
    · simp only [applyNav, prev_frame, if_pos h]
      cases hv : (persistMask st).current_video with
      | none =>
        simp only [change_frame, hv]
        rw [(persistMask_fields st).1]
        exact h1
      | some v =>
        rw [change_frame_cursor hv]
        omega
    · simp only [applyNav, prev_frame, if_neg h]
      exact h1
  | next =>
    by_cases h : st.current_frame < st.total_frames - 1
    · simp only [applyNav, next_frame, if_pos h]
      cases hv : (persistMask st).current_video with
      | none =>
        simp only [change_frame, hv]
        rw [(persistMask_fields st).1]
        exact h1
      | some v =>
        rw [change_frame_cursor hv]
        omega
    · simp only [applyNav, next_frame, if_neg h]
      exact h1
  | slider v =>
    simp only [applyNav, set_slider]
    cases hv : st.current_video with
    | none =>
      simp only [change_frame, hv]
      exact h1
    | some w =>
      rw [change_frame_cursor hv]
      omega

theorem navRun_bounds (ops : List NavOp) :
    ∀ st : WState, 0 < st.total_frames → st.current_frame < st.total_frames →
      (navRun st ops).current_frame < (navRun st ops).total_frames ∧
      (navRun st ops).total_frames = st.total_frames := by
  induction ops with
  | nil => intro st _ h1; exact ⟨h1, rfl⟩
  | cons op rest ih =>
    intro st h0 h1
    have hT := applyNav_total_frames st op
    have hcur := applyNav_cursor_lt op h0 h1
    have hrec := ih (applyNav st op) (by rw [hT]; exact h0) hcur
    constructor
    · show (navRun (applyNav st op) rest).current_frame <
        (navRun (applyNav st op) rest).total_frames
      exact hrec.1
    · show (navRun (applyNav st op) rest).total_frames = st.total_frames
      rw [hrec.2, hT]

/-- C7: after a video is loaded (`total_frames ≥ 1`, cursor in range, as
established by `load_video`), any sequence of `prev_frame` / `next_frame` /
slider-driven `change_frame` operations keeps `0 ≤ current_frame <
total_frames` (the lower bound is inherent to `Nat`), and navigating
backward at frame 0 or forward at frame `total_frames - 1` leaves the
state (in particular the cursor) unchanged. -/
theorem c7_frame_cursor_in_bounds (st : WState) (ops : List NavOp)
    (h0 : 0 < st.total_frames) (h1 : st.current_frame < st.total_frames) :
    (navRun st ops).current_frame < (navRun st ops).total_frames ∧
    (navRun st ops).total_frames = st.total_frames ∧
    (st.current_frame = 0 → applyNav st NavOp.prev = st) ∧
    (st.current_frame = st.total_frames - 1 → applyNav st NavOp.next = st) := by
  obtain ⟨hb, hT⟩ := navRun_bounds ops st h0 h1
  refine ⟨hb, hT, ?_, ?_⟩
  · intro h; simp [applyNav, prev_frame, h]
  · intro h; simp [applyNav, next_frame, h]

/-- C7 witness: the bounds theorem applied to a concrete loaded two-frame
video and a concrete navigation sequence. -/
theorem c7_frame_cursor_in_bounds_witness :
    (navRun stNav [NavOp.next, NavOp.next, NavOp.slider 7, NavOp.prev]).current_frame <
      (navRun stNav [NavOp.next, NavOp.next, NavOp.slider 7, NavOp.prev]).total_frames ∧
    applyNav stNav NavOp.prev = stNav :=
  ⟨(c7_frame_cursor_in_bounds stNav [NavOp.next, NavOp.next, NavOp.slider 7, NavOp.prev]
      (by decide) (by decide)).1,
   (c7_frame_cursor_in_bounds stNav [] (by decide) (by decide)).2.2.1 (by decide)⟩

/-! ### Label registry (C6) -/

theorem le_foldl_max (l : List Nat) (a : Nat) : a ≤ l.foldl max a := by
  induction l generalizing a with
  | nil => exact Nat.le_refl a
  | cons x xs ih => exact Nat.le_trans (Nat.le_max_left a x) (ih (max a x))

theorem mem_le_foldl_max {l : List Nat} {v : Nat} (h : v ∈ l) :
    ∀ a : Nat, v ≤ l.foldl max a := by
  induction l with
  | nil => cases h
  | cons x xs ih =>
    intro a
    rcases List.mem_cons.mp h with rfl | hx
    · exact Nat.le_trans (Nat.le_max_right a v) (le_foldl_max xs (max a v))
    · exact ih hx (max a x)

theorem mem_le_maxLabelValue {cfg : LabelsConfig} {p : String × LabelEntry}
    (h : p ∈ cfg) : p.2.value ≤ maxLabelValue cfg :=
  mem_le_foldl_max (List.mem_map_of_mem (fun q => q.2.value) h) 0

theorem maxLabelValue_succ_not_mem (cfg : LabelsConfig) :
    maxLabelValue cfg + 1 ∉ cfg.map (fun q => q.2.value) := by
  intro hmem
  obtain ⟨q, hq, hval⟩ := List.mem_map.mp hmem
  have := mem_le_maxLabelValue hq
  omega

/-- C6: starting from a registry with pairwise-distinct label values,
`add_custom_label` never produces a value collision: the registry is either
returned unchanged (rejected attempt — empty or duplicate name, empty
registry, cancelled color dialog) or grows by exactly one entry whose
auto-assigned value `max + 1` was not previously in use, keeping the values
pairwise distinct. A name collision in particular (whose label value is
already in use) is always rejected with the registry unchanged. -/
theorem c6_label_value_uniqueness (cfg : LabelsConfig) (name : String)
    (colorValid : Bool) (rgb : List Nat)
    (hnd : (cfg.map (fun p => p.2.value)).Nodup) :
    (add_custom_label cfg name colorValid rgb = cfg ∨
      ((add_custom_label cfg name colorValid rgb).length = cfg.length + 1 ∧
        ((add_custom_label cfg name colorValid rgb).map (fun p => p.2.value)).Nodup)) ∧
    (cfg.any (fun p => p.1 == name) = true →
      add_custom_label cfg name colorValid rgb = cfg) ∧
    (∀ p ∈ add_custom_label cfg name colorValid rgb,
      p ∈ cfg ∨ p.2.value ∉ cfg.map (fun q => q.2.value)) := by
  by_cases hname : name = ""
  · have hres : add_custom_label cfg name colorValid rgb = cfg := by
      simp [add_custom_label, hname]
    exact ⟨Or.inl hres, fun _ => hres, fun p hp => Or.inl (hres ▸ hp)⟩
  · by_cases hany : cfg.any (fun p => p.1 == name) = true
    · have hres : add_custom_label cfg name colorValid rgb = cfg := by
        simp [add_custom_label, hname, hany]
      exact ⟨Or.inl hres, fun _ => hres, fun p hp => Or.inl (hres ▸ hp)⟩
    · by_cases hemp : cfg.isEmpty = true
      · have hres : add_custom_label cfg name colorValid rgb = cfg := by
          simp only [add_custom_label, if_neg hname, if_neg hany, if_pos hemp]
        exact ⟨Or.inl hres, fun h => absurd h hany, fun p hp => Or.inl (hres ▸ hp)⟩
      · by_cases hc : colorValid = true
        · have hres : add_custom_label cfg name colorValid rgb =
              cfg ++ [(name, ⟨maxLabelValue cfg + 1, rgb ++ [255]⟩)] := by
            simp only [add_custom_label, if_neg hname, if_neg hany, if_neg hemp, if_pos hc]
          refine ⟨Or.inr ⟨?_, ?_⟩, fun h => absurd h hany, ?_⟩
          · rw [hres]; simp
          · rw [hres, List.map_append, List.nodup_append]
            refine ⟨hnd, List.nodup_singleton _, ?_⟩
            intro x hx hx1
            simp only [List.map_cons, List.map_nil, List.mem_singleton] at hx1
            subst hx1
            exact maxLabelValue_succ_not_mem cfg hx
          · intro p hp
            rw [hres] at hp
            rcases List.mem_append.mp hp with h | h
            · exact Or.inl h
            · simp only [List.mem_singleton] at h
              subst h
              exact Or.inr (maxLabelValue_succ_not_mem cfg)
        · have hres : add_custom_label cfg name colorValid rgb = cfg := by
            simp only [add_custom_label, if_neg hname, if_neg hany, if_neg hemp, if_neg hc]
          exact ⟨Or.inl hres, fun h => absurd h hany, fun p hp => Or.inl (hres ▸ hp)⟩

/-- C6 witness: adding a fresh label to the default registry grows it by
one entry with a fresh value; the value list stays pairwise distinct. -/
theorem c6_label_value_uniqueness_witness :
    add_custom_label DEFAULT_LABELS "vessel" true [10, 20, 30] = DEFAULT_LABELS ∨
      ((add_custom_label DEFAULT_LABELS "vessel" true [10, 20, 30]).length =
          DEFAULT_LABELS.length + 1 ∧
        ((add_custom_label DEFAULT_LABELS "vessel" true [10, 20, 30]).map
            (fun p => p.2.value)).Nodup) :=
  (c6_label_value_uniqueness DEFAULT_LABELS "vessel" true [10, 20, 30] (by decide)).1

/-! ### The reader hook (C10) -/

/-- C10: `napari_get_reader` returns `None` for any path list whose length
is not 1, and for any (single or singleton-list) path whose lowercased
`pathlib` suffix is not `.json`; whenever it returns a reader function the
argument was a single path (or a one-element list) with a case-insensitive
`.json` extension. -/
theorem c10_reader_gating (probe : String → Option Bool) :
    (∀ ps : List String, ps.length ≠ 1 →
      napari_get_reader probe (PathArg.many ps) = none) ∧
    (∀ p : String, isJsonSuffix p = false →
      napari_get_reader probe (PathArg.single p) = none ∧
      napari_get_reader probe (PathArg.many [p]) = none) ∧
    (∀ arg : PathArg, napari_get_reader probe arg ≠ none →
      ∃ p, (arg = PathArg.single p ∨ arg = PathArg.many [p]) ∧
        isJsonSuffix p = true) := by
  refine ⟨?_, ?_, ?_⟩
  · intro ps hlen
    match ps with
    | [] => rfl
    | [p] => exact absurd rfl hlen
    | p :: q :: rest => rfl
  · intro p hj
    constructor
    · simp [napari_get_reader, hj]
    · simp [napari_get_reader, hj]
  · intro arg h
    cases arg with
    | single p =>
      by_cases hj : isJsonSuffix p = true
      · exact ⟨p, Or.inl rfl, hj⟩
      · exact absurd (by simp [napari_get_reader, Bool.eq_false_iff.mpr hj]) h
    | many ps =>
      match ps with
      | [] => exact absurd rfl h
      | [p] =>
        by_cases hj : isJsonSuffix p = true
        · exact ⟨p, Or.inr rfl, hj⟩
        · exact absurd (by simp [napari_get_reader, Bool.eq_false_iff.mpr hj]) h
      | p :: q :: rest => exact absurd rfl h

/-- C10 witness: the gating theorem applied to a filesystem on which every
open fails, a two-element path list, a non-JSON single path, and a
keyword-named JSON path that does get a reader. -/
theorem c10_reader_gating_witness :
    napari_get_reader (fun _ => none) (PathArg.many ["a.json", "b.json"]) = none ∧
    napari_get_reader (fun _ => none) (PathArg.single "scan.txt") = none ∧
    isJsonSuffix "mask.json" = true := by
  refine ⟨(c10_reader_gating (fun _ => none)).1 ["a.json", "b.json"] (by decide),
    ((c10_reader_gating (fun _ => none)).2.1 "scan.txt" (by decide)).1, ?_⟩
  obtain ⟨p, hp, hj⟩ := (c10_reader_gating (fun _ => none)).2.2
    (PathArg.single "mask.json") (by decide)
  rcases hp with h | h
  · cases h
    exact hj
  · cases h

/-! ### Bulk export (C2, also used by C9) -/

theorem exportLoop_frame_count (store : MaskStore) (H W : Nat) :
    ∀ (T : Nat) (arts : List Artifact), exportLoop store H W T = some arts →
      ∀ i : Nat,
        arts.count (Artifact.framePng i) = (if i < T then 1 else 0) ∧
        arts.count (Artifact.frameNpy i) = (if i < T then 1 else 0) := by
  intro T
  induction T with
  | zero =>
    intro arts h i
    obtain rfl := Option.some_inj.mp h.symm
    simp
  | succ n ih =>
    intro arts h i
    cases hL : exportLoop store H W n with
    | none => rw [exportLoop, hL] at h; cases h
    | some acc =>
      cases hS : exportStep store H W n with
      | none => rw [exportLoop, hL, hS] at h; cases h
      | some step =>
        rw [exportLoop, hL, hS] at h
        obtain rfl := Option.some_inj.mp h.symm
        have hstep : step.count (Artifact.framePng i) = (if i = n then 1 else 0) ∧
            step.count (Artifact.frameNpy i) = (if i = n then 1 else 0) := by
          rw [exportStep] at hS
          cases hlk : storeLookup store n with
          | none =>
            rw [hlk] at hS
            obtain rfl := Option.some_inj.mp hS
            by_cases him : i = n <;> simp [List.count_cons, him]
          | some m =>
            rw [hlk] at hS
            have hS2 : (if hasShapeB m H W = true then
                some [Artifact.framePng n, Artifact.frameNpy n, Artifact.maskRawPng n,
                      Artifact.maskColorPng n, Artifact.maskNpy n]
              else none) = some step := hS
            by_cases hsh : hasShapeB m H W = true
            · rw [if_pos hsh] at hS2
              obtain rfl := Option.some_inj.mp hS2
              by_cases him : i = n <;> simp [List.count_cons, him]
            · rw [if_neg hsh] at hS2; cases hS2
        have hacc := ih acc hL i
        constructor
        · rw [List.count_append, hacc.1, hstep.1]
          split_ifs <;> omega
        · rw [List.count_append, hacc.2, hstep.2]
          split_ifs <;> omega

theorem exportLoop_mask_mem (store : MaskStore) (H W : Nat) :
    ∀ (T : Nat) (arts : List Artifact), exportLoop store H W T = some arts →
      ∀ i : Nat,
        (Artifact.maskRawPng i ∈ arts ↔ i < T ∧ storeLookup store i ≠ none) ∧
        (Artifact.maskColorPng i ∈ arts ↔ i < T ∧ storeLookup store i ≠ none) ∧
        (Artifact.maskNpy i ∈ arts ↔ i < T ∧ storeLookup store i ≠ none) := by
  intro T
  induction T with
  | zero =>
    intro arts h i
    obtain rfl := Option.some_inj.mp h.symm
    simp
  | succ n ih =>
    intro arts h i
    cases hL : exportLoop store H W n with
    | none => rw [exportLoop, hL] at h; cases h
    | some acc =>
      cases hS : exportStep store H W n with
      | none => rw [exportLoop, hL, hS] at h; cases h
      | some step =>
        rw [exportLoop, hL, hS] at h
        obtain rfl := Option.some_inj.mp h.symm
        have hacc := ih acc hL i
        rw [exportStep] at hS
        cases hlk : storeLookup store n with
        | none =>
          rw [hlk] at hS
          obtain rfl := Option.some_inj.mp hS
          have build : ∀ P : Prop, (P ↔ i < n ∧ storeLookup store i ≠ none) →
              (P ↔ i < n + 1 ∧ storeLookup store i ≠ none) := by
            intro P hP
            rw [hP]
            constructor
            · rintro ⟨h1, h2⟩
              exact ⟨Nat.lt_succ_of_lt h1, h2⟩
            · rintro ⟨h1, h2⟩
              refine ⟨?_, h2⟩
              rcases Nat.lt_succ_iff_lt_or_eq.mp h1 with h | rfl
              · exact h
              · exact absurd hlk h2
          refine ⟨?_, ?_, ?_⟩
          · refine build _ (Iff.trans ?_ hacc.1)
            rw [List.mem_append]
            simp
          · refine build _ (Iff.trans ?_ hacc.2.1)
            rw [List.mem_append]
            simp
          · refine build _ (Iff.trans ?_ hacc.2.2)
            rw [List.mem_append]
            simp
        | some m =>
          rw [hlk] at hS
          have hS2 : (if hasShapeB m H W = true then
              some [Artifact.framePng n, Artifact.frameNpy n, Artifact.maskRawPng n,
                    Artifact.maskColorPng n, Artifact.maskNpy n]
            else none) = some step := hS
          by_cases hsh : hasShapeB m H W = true
          · rw [if_pos hsh] at hS2
            obtain rfl := Option.some_inj.mp hS2
            have build : ∀ P : Prop, (P ↔ i < n ∧ storeLookup store i ≠ none) →
                ((P ∨ i = n) ↔ i < n + 1 ∧ storeLookup store i ≠ none) := by
              intro P hP
              rw [hP]
              constructor
              · rintro (⟨h1, h2⟩ | rfl)
                · exact ⟨Nat.lt_succ_of_lt h1, h2⟩
                · exact ⟨Nat.lt_succ_self _, by rw [hlk]; exact fun hx => nomatch hx⟩
              · rintro ⟨h1, h2⟩
                rcases Nat.lt_succ_iff_lt_or_eq.mp h1 with h | rfl
                · exact Or.inl ⟨h, h2⟩
                · exact Or.inr rfl
            refine ⟨?_, ?_, ?_⟩
            · refine Iff.trans ?_ (build _ hacc.1)
              rw [List.mem_append]
              simp
            · refine Iff.trans ?_ (build _ hacc.2.1)
              rw [List.mem_append]
              simp
            · refine Iff.trans ?_ (build _ hacc.2.2)
              rw [List.mem_append]
              simp
          · rw [if_neg hsh] at hS2; cases hS2

/-- C2 counterexample (claim as stated): for the one-frame video (`T = 1`,
1x1 frames) and the store whose only key is frame 1, the export succeeds,
frame 1 is a key of the store, yet no mask artifact for frame 1 is
written — the claimed "mask artifacts iff key of the store" fails for keys
outside `[0, total_frames)`. -/
theorem c2_export_key_outside_range_counterexample :
    exportLoop storeGap 1 1 1 = some [Artifact.framePng 0, Artifact.frameNpy 0] ∧
    storeLookup storeGap 1 ≠ none ∧
    Artifact.maskRawPng 1 ∉ [Artifact.framePng 0, Artifact.frameNpy 0] ∧
    Artifact.maskColorPng 1 ∉ [Artifact.framePng 0, Artifact.frameNpy 0] ∧
    Artifact.maskNpy 1 ∉ [Artifact.framePng 0, Artifact.frameNpy 0] := by
  decide

/-- C2 (amended): a successful bulk export writes exactly one frame PNG and
exactly one frame NPY for every frame index `i < total_frames` (and none
for other indices), and writes the three mask artifacts for frame `i` if
and only if `i < total_frames` and `i` is a key of the mask store; store
keys outside the frame range produce no artifacts. -/
theorem c2_export_completeness (store : MaskStore) (H W T : Nat)
    (arts : List Artifact) (h : exportLoop store H W T = some arts) :
    (∀ i : Nat, arts.count (Artifact.framePng i) = (if i < T then 1 else 0)) ∧
    (∀ i : Nat, arts.count (Artifact.frameNpy i) = (if i < T then 1 else 0)) ∧
    (∀ i : Nat, Artifact.maskRawPng i ∈ arts ↔ i < T ∧ storeLookup store i ≠ none) ∧
    (∀ i : Nat, Artifact.maskColorPng i ∈ arts ↔ i < T ∧ storeLookup store i ≠ none) ∧
    (∀ i : Nat, Artifact.maskNpy i ∈ arts ↔ i < T ∧ storeLookup store i ≠ none) :=
  ⟨fun i => (exportLoop_frame_count store H W T arts h i).1,
   fun i => (exportLoop_frame_count store H W T arts h i).2,
   fun i => (exportLoop_mask_mem store H W T arts h i).1,
   fun i => (exportLoop_mask_mem store H W T arts h i).2.1,
   fun i => (exportLoop_mask_mem store H W T arts h i).2.2⟩

/-- C2 witness: exporting a two-frame 1x1 video with a mask stored only at
frame 0 yields one frame pair per frame, mask artifacts at frame 0 and
none at frame 1. -/
theorem c2_export_completeness_witness :
    artsExp.count (Artifact.framePng 1) = (if 1 < 2 then 1 else 0) ∧
    (Artifact.maskNpy 0 ∈ artsExp ↔ 0 < 2 ∧ storeLookup storeExp 0 ≠ none) ∧
    (Artifact.maskNpy 1 ∈ artsExp ↔ 1 < 2 ∧ storeLookup storeExp 1 ≠ none) :=
  ⟨(c2_export_completeness storeExp 1 1 2 artsExp rfl).1 1,
   (c2_export_completeness storeExp 1 1 2 artsExp rfl).2.2.2.2 0,
   (c2_export_completeness storeExp 1 1 2 artsExp rfl).2.2.2.2 1⟩

/-! ### The stacked masks array (C3) -/

theorem map_mod_eq_self {row : List Nat} (h : ∀ x ∈ row, x < 65536) :
    row.map (fun x => x % 65536) = row := by
  have h2 : ∀ x ∈ row, x % 65536 = id x := fun x hx => Nat.mod_eq_of_lt (h x hx)
  rw [List.map_congr_left h2, List.map_id]

theorem toUint16_eq_self {m : Mask} (h : ∀ row ∈ m, ∀ x ∈ row, x < 65536) :
    toUint16 m = m := by
  unfold toUint16
  have h2 : ∀ row ∈ m, row.map (fun x => x % 65536) = id row :=
    fun row hr => map_mod_eq_self (h row hr)
  rw [List.map_congr_left h2, List.map_id]

theorem toUint16_length (m : Mask) : (toUint16 m).length = m.length :=
  List.length_map _ _

/-- C3: the `masks_stack` built by the bulk export has one entry of shape
`(H, W)` per frame index in `[0, T)`; for a frame in the store the entry is
the stored mask (`uint16` values assumed, as they are for every array the
widget stores), and for an absent frame it is the zero array. -/
theorem c3_masks_stack (store : MaskStore) (T H W : Nat)
    (hshape : ∀ p ∈ store, p.1 < T → p.2.length = H ∧ ∀ row ∈ p.2, row.length = W)
    (hvals : ∀ p ∈ store, ∀ row ∈ p.2, ∀ x ∈ row, x < 65536) :
    (masksStack store T H W).length = T ∧
    (∀ i, i < T → ∀ m : Mask, storeLookup store i = some m →
      (masksStack store T H W)[i]? = some m) ∧
    (∀ i, i < T → storeLookup store i = none →
      (masksStack store T H W)[i]? = some (List.replicate H (List.replicate W 0))) ∧
    (∀ e ∈ masksStack store T H W, e.length = H ∧ ∀ row ∈ e, row.length = W) := by
  have hent : ∀ i, i < T → (masksStack store T H W)[i]? =
      some (match storeLookup store i with
            | some m => toUint16 m
            | none => List.replicate H (List.replicate W 0)) := by
    intro i hi
    rw [masksStack, List.getElem?_map, List.getElem?_range hi]
    rfl
  refine ⟨by simp [masksStack], ?_, ?_, ?_⟩
  · intro i hi m hm
    rw [hent i hi, hm]
    have := toUint16_eq_self (hvals _ (storeLookup_mem hm))
    simp only [this]
  · intro i hi hm
    rw [hent i hi, hm]
  · intro e he
    obtain ⟨i, hi, rfl⟩ := List.mem_map.mp he
    rw [List.mem_range] at hi
    cases hm : storeLookup store i with
    | some m =>
      simp only [hm]
      have hmem := storeLookup_mem hm
      have hsh := hshape _ hmem hi
      constructor
      · rw [toUint16_length]; exact hsh.1
      · intro row hr
        obtain ⟨r, hrm, rfl⟩ := List.mem_map.mp hr
        rw [List.length_map]
        exact hsh.2 r hrm
    | none =>
      simp only [hm]
      constructor
      · exact List.length_replicate _ _
      · intro row hr
        rw [List.eq_of_mem_replicate hr]
        exact List.length_replicate _ _

/-- C3 witness: the spec's example — `store = {0: zeros(5,5), 2: ones(5,5)}`,
`total_frames = 3` — gives a stack of length 3 whose entry 1 is all zeros
and whose entry 2 is all ones. -/
theorem c3_masks_stack_witness :
    (masksStack storeStack 3 5 5).length = 3 ∧
    (masksStack storeStack 3 5 5)[1]? = some (List.replicate 5 (List.replicate 5 0)) ∧
    (masksStack storeStack 3 5 5)[2]? = some (List.replicate 5 (List.replicate 5 1)) :=
  ⟨(c3_masks_stack storeStack 3 5 5 (by decide) (by decide)).1,
   (c3_masks_stack storeStack 3 5 5 (by decide) (by decide)).2.2.1 1
     (by decide) (by decide),
   (c3_masks_stack storeStack 3 5 5 (by decide) (by decide)).2.1 2
     (by decide) (List.replicate 5 (List.replicate 5 1)) (by decide)⟩

/-! ### JSON persistence (C1, C4) -/

theorem ofDecimalDigits_eq (ds : List Nat) : ofDecimalDigits ds = Nat.ofDigits 10 ds := by
  induction ds with
  | nil => rfl
  | cons d rest ih => simp [ofDecimalDigits, Nat.ofDigits, ih]

theorem parseKey_digits (k : Nat) : parseKey (Nat.digits 10 k) = some k := by
  have hall : ((Nat.digits 10 k).all fun d => decide (d < 10)) = true := by
    rw [List.all_eq_true]
    intro d hd
    exact decide_eq_true (Nat.digits_lt_base (by norm_num) hd)
  unfold parseKey
  rw [if_pos hall, ofDecimalDigits_eq, Nat.ofDigits_digits]

theorem parseMask_eq_self {m : Mask} (hrect : rectangular m = true)
    (hv : ∀ row ∈ m, ∀ x ∈ row, x < 65536) : parseMask m = some m := by
  unfold parseMask
  rw [if_pos hrect, toUint16_eq_self hv]

theorem storeLookup_append_of_none {a : MaskStore} {i : Nat}
    (h : storeLookup a i = none) (b : MaskStore) :
    storeLookup (a ++ b) i = storeLookup b i := by
  rw [storeLookup_append, h]

theorem loadEntries_saved (s : MaskStore) :
    ∀ acc : MaskStore,
      (storeKeys s).Nodup →
      (∀ k ∈ storeKeys s, storeLookup acc k = none) →
      (∀ p ∈ s, rectangular p.2 = true) →
      (∀ p ∈ s, ∀ row ∈ p.2, ∀ x ∈ row, x < 65536) →
      loadEntries (s.map (fun p => (Nat.digits 10 p.1, p.2))) acc = (acc ++ s, true) := by
  induction s with
  | nil =>
    intro acc _ _ _ _
    simp [loadEntries]
  | cons p rest ih =>
    intro acc hnd hdisj hrect hvals
    obtain ⟨k, m⟩ := p
    have h1 : parseKey (Nat.digits 10 k) = some k := parseKey_digits k
    have h2 : parseMask m = some m :=
      parseMask_eq_self (hrect _ (List.mem_cons_self _ _))
        (hvals _ (List.mem_cons_self _ _))
    rw [List.map_cons]
    simp only [loadEntries, h1, h2]
    have hlk : storeLookup acc k = none := hdisj k (by simp [storeKeys])
    rw [storeInsert_append_of_lookup_none hlk]
    have hnd2 : (storeKeys rest).Nodup := (List.nodup_cons.mp hnd).2
    have hknotin : k ∉ storeKeys rest := by
      have := (List.nodup_cons.mp hnd).1
      simpa [storeKeys] using this
    have hdisj2 : ∀ k2 ∈ storeKeys rest, storeLookup (acc ++ [(k, m)]) k2 = none := by
      intro k2 hk2
      have hne : ¬ (k = k2) := fun he => hknotin (he ▸ hk2)
      rw [storeLookup_append_of_none (hdisj k2 (List.mem_cons_of_mem _ hk2))]
      simp [storeLookup, hne]
    have hrect2 : ∀ q ∈ rest, rectangular q.2 = true :=
      fun q hq => hrect q (List.mem_cons_of_mem _ hq)
    have hvals2 : ∀ q ∈ rest, ∀ row ∈ q.2, ∀ x ∈ row, x < 65536 :=
      fun q hq => hvals q (List.mem_cons_of_mem _ hq)
    rw [ih (acc ++ [(k, m)]) hnd2 hdisj2 hrect2 hvals2, List.append_assoc,
      List.singleton_append]

theorem create_new_mask_of_lookup_some {st : WState}
    (h : storeLookup st.current_masks st.current_frame ≠ none) :
    (create_new_mask st).current_masks = st.current_masks ∧
    (create_new_mask st).labels_config = st.labels_config := by
  cases hv : st.current_video with
  | none => simp [create_new_mask, hv]
  | some v =>
    cases hl : storeLookup st.current_masks st.current_frame with
    | none => exact absurd hl h
    | some m => simp [create_new_mask, hv, hl]

/-- C1 counterexample (claim as stated): for the reachable widget state
`st1cx` (mask stored only for frame 0, active mask layer, cursor on
frame 1), saving and re-loading does not reproduce the store: the
`create_new_mask` call at the end of `load_masks` inserts a zero mask for
the current frame, so the loaded mapping has an extra key. -/
theorem c1_round_trip_counterexample :
    (load_masks st1cx (save_masks st1cx)).1.current_masks ≠ st1cx.current_masks := by
  have hsave : save_masks st1cx = some ⟨some DEFAULT_LABELS, some [([], [[3]])]⟩ := by
    rw [save_masks, if_neg (by decide)]
    simp [save_doc, st1cx, Nat.digits_zero]
  rw [hsave]
  decide

/-- C1 (amended): saving a (nonempty, `uint16`-valued, rectangular,
duplicate-free) mask store and label registry with `save_masks` and loading
the document back with `load_masks` succeeds and reproduces exactly the
same frame-to-array mapping and the same label registry, provided no mask
layer is active or the current frame is among the saved keys; otherwise
the trailing `create_new_mask` call of `load_masks` additionally inserts a
zero-filled mask for the current frame. -/
theorem c1_round_trip (st : WState)
    (hne : st.current_masks ≠ [])
    (hnd : (storeKeys st.current_masks).Nodup)
    (hrect : ∀ p ∈ st.current_masks, rectangular p.2 = true)
    (hvals : ∀ p ∈ st.current_masks, ∀ row ∈ p.2, ∀ x ∈ row, x < 65536)
    (hcur : st.mask_layer = none ∨
      storeLookup st.current_masks st.current_frame ≠ none) :
    (load_masks st (save_masks st)).1.current_masks = st.current_masks ∧
    (load_masks st (save_masks st)).1.labels_config = st.labels_config ∧
    (load_masks st (save_masks st)).2 = true := by
  have hemp : ¬ st.current_masks.isEmpty = true := by
    cases hms : st.current_masks with
    | nil => exact absurd hms hne
    | cons a l => simp
  have hsave : save_masks st = some (save_doc st) := by
    rw [save_masks, if_neg hemp]
  have hload := loadEntries_saved st.current_masks [] hnd (fun k _ => rfl) hrect hvals
  rw [List.nil_append] at hload
  rw [hsave]
  simp only [load_masks, save_doc, hload]
  have heta : ({ { st with labels_config := st.labels_config } with
      current_masks := st.current_masks } : WState) = st := rfl
  rw [heta]
  cases hml : st.mask_layer with
  | none => simp [finish_load, hml]
  | some lm =>
    rcases hcur with h | h
    · rw [hml] at h; cases h
    · simp only [finish_load, hml]
      have hc := create_new_mask_of_lookup_some h
      exact ⟨hc.1, hc.2, rfl⟩

/-- C1 witness: the amended round trip on a concrete one-frame state whose
current frame is among the saved keys. -/
theorem c1_round_trip_witness :
    (load_masks st1w (save_masks st1w)).1.current_masks = st1w.current_masks ∧
    (load_masks st1w (save_masks st1w)).1.labels_config = st1w.labels_config :=
  ⟨(c1_round_trip st1w (by decide) (by decide) (by decide) (by decide)
      (Or.inr (by decide))).1,
   (c1_round_trip st1w (by decide) (by decide) (by decide) (by decide)
      (Or.inr (by decide))).2.1⟩

/-- C4 counterexample (claim as stated): loading `doc4cx` (valid labels,
ragged mask entry) into the state `st4cx` fails — the exception is caught
at the action boundary — but the prior in-memory state is NOT left
unchanged: the label registry has been replaced and the mask store
emptied. -/
theorem c4_boundary_counterexample :
    (load_masks st4cx (some doc4cx)).2 = false ∧
    (load_masks st4cx (some doc4cx)).1 ≠ st4cx := by
  decide

/-- C4 (amended): every action catches failures at its own boundary and a
failure of the initial document read leaves the state unchanged
(`load_masks` and `load_label_config` on an unreadable document), but a
`load_masks` failure during mask parsing leaves a partially applied state:
the label registry is replaced by the document's (when present) and the
mask store holds exactly the prefix of entries parsed before the failing
one; the frame cursor and the video handle are unchanged. -/
theorem c4_failure_partial_state (st : WState) (d : MaskDoc)
    (entries : List (List Nat × List (List Nat))) (ms : MaskStore)
    (hm : d.masks = some entries) (hf : loadEntries entries [] = (ms, false)) :
    (load_masks st none).1 = st ∧
    (load_label_config st none).1 = st ∧
    (load_masks st (some d)).2 = false ∧
    (load_masks st (some d)).1.current_masks = ms ∧
    (load_masks st (some d)).1.labels_config = (d.labels_config).getD st.labels_config ∧
    (load_masks st (some d)).1.current_frame = st.current_frame ∧
    (load_masks st (some d)).1.current_video = st.current_video := by
  refine ⟨rfl, rfl, ?_, ?_, ?_, ?_, ?_⟩ <;>
    cases hL : d.labels_config <;>
      simp [load_masks, hm, hf, hL]

/-- C4 witness: the partial-state characterization applied to the concrete
failing load of `doc4cx` into `st4cx`. -/
theorem c4_failure_partial_state_witness :
    (load_masks st4cx none).1 = st4cx ∧
    (load_masks st4cx (some doc4cx)).2 = false ∧
    (load_masks st4cx (some doc4cx)).1.current_masks = [] :=
  ⟨(c4_failure_partial_state st4cx doc4cx [([1], [[1, 2], [3]])] [] rfl (by decide)).1,
   (c4_failure_partial_state st4cx doc4cx [([1], [[1, 2], [3]])] [] rfl (by decide)).2.2.1,
   (c4_failure_partial_state st4cx doc4cx [([1], [[1, 2], [3]])] [] rfl (by decide)).2.2.2.1⟩

/-! ### Loading a new video (C8) -/

theorem persistMask_of_none {w : WState} (h : w.mask_layer = none) :
    persistMask w = w := by
  simp [persistMask, h]

theorem create_new_mask_absent (w : WState) (v : List Mask)
    (h1 : w.current_video = some v)
    (hlk : storeLookup w.current_masks w.current_frame = none) :
    create_new_mask w =
      { w with
          current_masks := storeInsert w.current_masks w.current_frame
            (zeroMaskOf (v.getD w.current_frame [])),
          mask_layer := some (zeroMaskOf (v.getD w.current_frame [])) } := by
  simp only [create_new_mask, h1, hlk]

theorem create_new_mask_existing (w : WState) (v : List Mask) (m : Mask)
    (h1 : w.current_video = some v)
    (h2 : storeLookup w.current_masks w.current_frame = some m) :
    create_new_mask w = { w with mask_layer := some m } := by
  simp only [create_new_mask, h1, h2]

theorem change_frame_fresh (w : WState) (v : List Mask) (i : Nat)
    (h1 : w.current_video = some v) (h2 : w.current_masks = [])
    (h3 : w.mask_layer = none) :
    change_frame w i =
      { w with
          current_frame := i,
          current_masks := [(i, zeroMaskOf (v.getD i []))],
          mask_layer := some (zeroMaskOf (v.getD i [])) } := by
  have hstep : change_frame w i = create_new_mask { w with current_frame := i } := by
    simp only [change_frame, h1, persistMask_of_none h3]
  have hlk : storeLookup ({ w with current_frame := i } : WState).current_masks
      ({ w with current_frame := i } : WState).current_frame = none := by
    show storeLookup w.current_masks i = none
    rw [h2]
    rfl
  rw [hstep, create_new_mask_absent { w with current_frame := i } v h1 hlk]
  dsimp only
  rw [h2]
  rfl

theorem change_frame_to_zero_from (w : WState) (v : List Mask) (j : Nat) (zA : Mask)
    (h1 : w.current_video = some v) (h2 : w.current_masks = [(j, zA)])
    (h3 : w.mask_layer = some zA) (h4 : w.current_frame = j) (hj : j ≠ 0) :
    change_frame w 0 =
      { w with
          current_frame := 0,
          current_masks := [(j, zA), (0, zeroMaskOf (v.getD 0 []))],
          mask_layer := some (zeroMaskOf (v.getD 0 [])) } := by
  have hins : storeInsert w.current_masks w.current_frame zA = w.current_masks := by
    rw [h2, h4]
    simp [storeInsert]
  have hpm : persistMask w = w := by
    calc persistMask w
        = { w with current_masks :=
              storeInsert w.current_masks w.current_frame zA } := by
          simp only [persistMask, h3]
      _ = { w with current_masks := w.current_masks } := by rw [hins]
      _ = w := rfl
  have hstep : change_frame w 0 = create_new_mask { w with current_frame := 0 } := by
    simp only [change_frame, h1, hpm]
  have hlk : storeLookup ({ w with current_frame := 0 } : WState).current_masks
      ({ w with current_frame := 0 } : WState).current_frame = none := by
    show storeLookup w.current_masks 0 = none
    rw [h2]
    simp [storeLookup, hj]
  rw [hstep, create_new_mask_absent { w with current_frame := 0 } v h1 hlk]
  dsimp only
  rw [h2]
  have hins2 : storeInsert [(j, zA)] 0 (zeroMaskOf (v.getD 0 [])) =
      [(j, zA), (0, zeroMaskOf (v.getD 0 []))] := by
    simp [storeInsert, hj]
  rw [hins2]

theorem load_tail_fresh_zero (w : WState) (v : List Mask)
    (h1 : w.current_video = some v) (h2 : w.current_masks = [])
    (_h3 : w.mask_layer = none) (h4 : w.current_frame = 0) :
    create_new_mask w =
      { w with
          current_masks := [(0, zeroMaskOf (v.getD 0 []))],
          mask_layer := some (zeroMaskOf (v.getD 0 [])) } := by
  have hlk : storeLookup w.current_masks w.current_frame = none := by
    rw [h2]
    rfl
  rw [create_new_mask_absent w v h1 hlk, h2, h4]
  rfl

theorem load_tail_change_zero (w : WState) (v : List Mask)
    (h1 : w.current_video = some v) (h2 : w.current_masks = [])
    (h3 : w.mask_layer = none) :
    create_new_mask (change_frame w 0) =
      { w with
          current_frame := 0,
          current_masks := [(0, zeroMaskOf (v.getD 0 []))],
          mask_layer := some (zeroMaskOf (v.getD 0 [])) } := by
  rw [change_frame_fresh w v 0 h1 h2 h3]
  exact (create_new_mask_existing
    { w with
        current_frame := 0,
        current_masks := [(0, zeroMaskOf (v.getD 0 []))],
        mask_layer := some (zeroMaskOf (v.getD 0 [])) } v (zeroMaskOf (v.getD 0 []))
    h1 (by simp [storeLookup])).trans rfl

theorem load_tail_clamp (w : WState) (v : List Mask) (j : Nat)
    (h1 : w.current_video = some v) (h2 : w.current_masks = [])
    (h3 : w.mask_layer = none) (hj : j ≠ 0) :
    create_new_mask (change_frame (change_frame w j) 0) =
      { w with
          current_frame := 0,
          current_masks := [(j, zeroMaskOf (v.getD j [])), (0, zeroMaskOf (v.getD 0 []))],
          mask_layer := some (zeroMaskOf (v.getD 0 [])) } := by
  rw [change_frame_fresh w v j h1 h2 h3]
  rw [change_frame_to_zero_from
    { w with
        current_frame := j,
        current_masks := [(j, zeroMaskOf (v.getD j []))],
        mask_layer := some (zeroMaskOf (v.getD j [])) } v j (zeroMaskOf (v.getD j []))
    h1 rfl rfl rfl hj]
  refine (create_new_mask_existing _ v (zeroMaskOf (v.getD 0 [])) ?_ ?_).trans rfl
  · exact h1
  · simp [storeLookup, hj]

/-- C8: on a successful `load_video` of a new frame list `v`, the prior
state is discarded: the resulting store holds only freshly created
zero-filled masks of the new video's frames — the zero mask of frame 0,
plus (exactly when the prior cursor exceeds the new video's last frame
index `v.length - 1 ≥ 1`, so that the Qt slider clamp of
`setMaximum` refires `change_frame`) the zero mask of frame
`v.length - 1`. No mask of the previous video survives: every store entry
is `(i, zeros-of-frame-i)` with `i < v.length`. The single video handle is
the new video with its frame count and cursor 0, and the mask layer holds
the zero mask of frame 0. The best-effort persistence step that runs first
(`persistMask`) does place the active layer data into the in-memory store
under the current frame. -/
theorem c8_load_video_discards_prior (st : WState) (v : List Mask) (hv : v ≠ []) :
    ((load_video st v).current_masks = [(0, zeroMaskOf (v.getD 0 []))] ∨
      (load_video st v).current_masks =
        [(v.length - 1, zeroMaskOf (v.getD (v.length - 1) [])),
         (0, zeroMaskOf (v.getD 0 []))]) ∧
    (∀ p ∈ (load_video st v).current_masks,
      p.1 < v.length ∧ p.2 = zeroMaskOf (v.getD p.1 [])) ∧
    (load_video st v).current_video = some v ∧
    (load_video st v).total_frames = v.length ∧
    (load_video st v).current_frame = 0 ∧
    (load_video st v).mask_layer = some (zeroMaskOf (v.getD 0 [])) ∧
    (∀ m : Mask, st.mask_layer = some m → st.current_video.isSome = true →
      storeLookup (persistMask st).current_masks st.current_frame = some m) := by
  have hTpos : 0 < v.length := List.length_pos.mpr hv
  have hpers : ∀ m : Mask, st.mask_layer = some m → st.current_video.isSome = true →
      storeLookup (persistMask st).current_masks st.current_frame = some m := by
    intro m hm _
    simp only [persistMask, hm]
    exact storeLookup_insert_self _ _ _
  by_cases hA : v.length - 1 < st.current_frame
  · by_cases hB : min st.current_frame (v.length - 1) ≠ 0
    · have hj : v.length - 1 ≠ 0 := by
        rwa [min_eq_right (Nat.le_of_lt hA)] at hB
      simp only [load_video]
      rw [if_pos hA, if_pos hB,
        load_tail_clamp (discard_state st v) v (v.length - 1) rfl rfl rfl hj]
      refine ⟨Or.inr rfl, ?_, rfl, rfl, rfl, rfl, hpers⟩
      intro p hp
      have hp2 : p ∈ [(v.length - 1, zeroMaskOf (v.getD (v.length - 1) [])),
          (0, zeroMaskOf (v.getD 0 []))] := hp
      cases hp2 with
      | head => exact ⟨Nat.sub_lt hTpos (by decide), rfl⟩
      | tail _ htl =>
        cases htl with
        | head => exact ⟨hTpos, rfl⟩
        | tail _ h2 => cases h2
    · have h0 : v.length - 1 = 0 := by
        have hmin := not_not.mp hB
        rwa [min_eq_right (Nat.le_of_lt hA)] at hmin
      simp only [load_video]
      rw [if_pos hA, if_neg hB, h0,
        load_tail_change_zero (discard_state st v) v rfl rfl rfl]
      refine ⟨Or.inl rfl, ?_, rfl, rfl, rfl, rfl, hpers⟩
      intro p hp
      have hp2 : p ∈ [(0, zeroMaskOf (v.getD 0 []))] := hp
      cases hp2 with
      | head => exact ⟨hTpos, rfl⟩
      | tail _ htl => cases htl
  · by_cases hB : min st.current_frame (v.length - 1) ≠ 0
    · simp only [load_video]
      rw [if_neg hA, if_pos hB,
        load_tail_change_zero (discard_state st v) v rfl rfl rfl]
      refine ⟨Or.inl rfl, ?_, rfl, rfl, rfl, rfl, hpers⟩
      intro p hp
      have hp2 : p ∈ [(0, zeroMaskOf (v.getD 0 []))] := hp
      cases hp2 with
      | head => exact ⟨hTpos, rfl⟩
      | tail _ htl => cases htl
    · simp only [load_video]
      rw [if_neg hA, if_neg hB,
        load_tail_fresh_zero (discard_state st v) v rfl rfl rfl rfl]
      refine ⟨Or.inl rfl, ?_, rfl, rfl, rfl, rfl, hpers⟩
      intro p hp
      have hp2 : p ∈ [(0, zeroMaskOf (v.getD 0 []))] := hp
      cases hp2 with
      | head => exact ⟨hTpos, rfl⟩
      | tail _ htl => cases htl

/-- C8 witness: loading a one-frame video over `st8w` (stored mask, active
layer, cursor 0 — no slider refire) gives the singleton zero store, and
loading a two-frame video over `st8b` (cursor on frame 2 of a three-frame
video — the slider clamp refires) gives exactly the two fresh zero masks;
in both cases the persistence step records the prior layer data. -/
theorem c8_load_video_discards_prior_witness :
    ((load_video st8w [[[2, 3]]]).current_masks = [(0, [[0, 0]])] ∨
      (load_video st8w [[[2, 3]]]).current_masks = [(0, [[0, 0]]), (0, [[0, 0]])]) ∧
    (load_video st8w [[[2, 3]]]).current_video = some [[[2, 3]]] ∧
    (load_video st8w [[[2, 3]]]).current_frame = 0 ∧
    ((load_video st8b [[[4]], [[5]]]).current_masks = [(0, [[0]])] ∨
      (load_video st8b [[[4]], [[5]]]).current_masks = [(1, [[0]]), (0, [[0]])]) ∧
    (load_video st8b [[[4]], [[5]]]).current_masks = [(1, [[0]]), (0, [[0]])] ∧
    storeLookup (persistMask st8b).current_masks 2 = some [[7]] :=
  ⟨(c8_load_video_discards_prior st8w [[[2, 3]]] (by decide)).1,
   (c8_load_video_discards_prior st8w [[[2, 3]]] (by decide)).2.2.1,
   (c8_load_video_discards_prior st8w [[[2, 3]]] (by decide)).2.2.2.2.1,
   (c8_load_video_discards_prior st8b [[[4]], [[5]]] (by decide)).1,
   by decide,
   (c8_load_video_discards_prior st8b [[[4]], [[5]]] (by decide)).2.2.2.2.2.2
     [[7]] rfl rfl⟩

/-! ### Navigation inserts zero masks (C9) -/

theorem create_new_mask_lookup_cur {st : WState} {v : List Mask}
    (hv : st.current_video = some v) :
    storeLookup (create_new_mask st).current_masks st.current_frame ≠ none ∧
    (storeLookup st.current_masks st.current_frame = none →
      storeLookup (create_new_mask st).current_masks st.current_frame =
        some (zeroMaskOf (v.getD st.current_frame []))) := by
  cases hl : storeLookup st.current_masks st.current_frame with
  | some m =>
    constructor
    · simp [create_new_mask, hv, hl]
    · exact fun h => Option.noConfusion h
  | none =>
    constructor
    · simp [create_new_mask, hv, hl, storeLookup_insert_self]
    · intro _
      simp [create_new_mask, hv, hl, storeLookup_insert_self]

/-- C9: with a video loaded, `change_frame st i` (triggered by any
navigation to frame `i`) always leaves frame `i` as a key of the mask
store: if it had no entry (after the save-current-layer step), a zero mask
of frame `i`'s shape is inserted by `create_new_mask` as a side effect.
Consequently `i` appears in the saved JSON document's `masks` keys, a
successful bulk export covering `i` writes mask artifacts for it, and the
"frames with masks" statistic counts it. `create_new_mask` itself likewise
always leaves the current frame as a key. -/
theorem c9_navigation_marks_frame_masked (st : WState) (v : List Mask) (i : Nat)
    (hv : st.current_video = some v) :
    storeLookup (create_new_mask st).current_masks st.current_frame ≠ none ∧
    storeLookup (change_frame st i).current_masks i ≠ none ∧
    (storeLookup (persistMask st).current_masks i = none →
      storeLookup (change_frame st i).current_masks i =
        some (zeroMaskOf (v.getD i []))) ∧
    (∃ m : Mask, (Nat.digits 10 i, m) ∈
      ((save_doc (change_frame st i)).masks.getD [])) ∧
    (∀ T H W : Nat, ∀ arts : List Artifact,
      exportLoop (change_frame st i).current_masks H W T = some arts →
      i < T → Artifact.maskNpy i ∈ arts) ∧
    0 < (change_frame st i).current_masks.length := by
  have hv2 : ({ persistMask st with current_frame := i }).current_video = some v :=
    (persistMask_fields st).2.2.1.trans hv
  have hcc := create_new_mask_lookup_cur hv2
  have hchg : change_frame st i =
      create_new_mask { persistMask st with current_frame := i } := by
    simp only [change_frame, hv]
  have hkey : storeLookup (change_frame st i).current_masks i ≠ none := by
    rw [hchg]; exact hcc.1
  obtain ⟨m0, hm0⟩ : ∃ m0, storeLookup (change_frame st i).current_masks i = some m0 :=
    Option.ne_none_iff_exists'.mp hkey
  have hmem := storeLookup_mem hm0
  refine ⟨(create_new_mask_lookup_cur hv).1, hkey, ?_, ?_, ?_, ?_⟩
  · intro h
    rw [hchg]
    exact hcc.2 h
  · refine ⟨m0, ?_⟩
    simp only [save_doc, Option.getD_some]
    exact List.mem_map_of_mem _ hmem
  · intro T H W arts hexp hiT
    exact ((exportLoop_mask_mem _ H W T arts hexp i).2.2).mpr ⟨hiT, hkey⟩
  · exact List.length_pos.mpr (List.ne_nil_of_mem hmem)

/-- C9 witness: navigating to frame 0 of a freshly loaded video (empty
store) inserts the zero 1x1 mask for frame 0 and makes the store
nonempty. -/
theorem c9_navigation_marks_frame_masked_witness :
    storeLookup (change_frame st9w 0).current_masks 0 ≠ none ∧
    0 < (change_frame st9w 0).current_masks.length :=
  ⟨(c9_navigation_marks_frame_masked st9w [[[0]]] 0 rfl).2.1,
   (c9_navigation_marks_frame_masked st9w [[[0]]] 0 rfl).2.2.2.2.2⟩

/-! ### The shape invariant (C5) -/

theorem zeroMaskOf_shape {f : Mask} {H W : Nat} (h : hasShape f H W) :
    hasShape (zeroMaskOf f) H W := by
  obtain ⟨h1, h2⟩ := h
  constructor
  · rw [zeroMaskOf, List.length_map]
    exact h1
  · intro row hr
    obtain ⟨r, hrm, rfl⟩ := List.mem_map.mp hr
    rw [List.length_map]
    exact h2 r hrm

theorem getD_mem {α : Type} (l : List α) (i : Nat) (d : α) (h : i < l.length) :
    l.getD i d ∈ l := by
  induction l generalizing i with
  | nil => cases h
  | cons x xs ih =>
    cases i with
    | zero => exact List.mem_cons_self _ _
    | succ n => exact List.mem_cons_of_mem _ (ih n (Nat.lt_of_succ_lt_succ h))

theorem storeShape_insert {s : MaskStore} {H W : Nat}
    (hs : ∀ i m, storeLookup s i = some m → hasShape m H W)
    {k : Nat} {mk : Mask} (hmk : hasShape mk H W) :
    ∀ i m, storeLookup (storeInsert s k mk) i = some m → hasShape m H W := by
  intro i m hm
  rw [storeLookup_insert] at hm
  split at hm
  · obtain rfl := Option.some_inj.mp hm
    exact hmk
  · exact hs i m hm

theorem Inv_persistMask {st : WState} {H W : Nat} (h : Inv st H W) :
    Inv (persistMask st) H W := by
  obtain ⟨hvid, hcur, hstore, hlayer⟩ := h
  cases hml : st.mask_layer with
  | none =>
    simp only [persistMask, hml]
    exact ⟨hvid, hcur, hstore, hlayer⟩
  | some lm =>
    have hsh := hlayer lm hml
    have hms : (persistMask st).current_masks =
        storeInsert st.current_masks st.current_frame lm := by
      simp only [persistMask, hml]
    refine ⟨?_, ?_, ?_, ?_⟩
    · obtain ⟨v, hv, hT, hf⟩ := hvid
      refine ⟨v, (persistMask_fields st).2.2.1.trans hv, ?_, hf⟩
      rw [(persistMask_fields st).2.1]
      exact hT
    · rw [(persistMask_fields st).1, (persistMask_fields st).2.1]
      exact hcur
    · rw [hms]
      exact storeShape_insert hstore hsh
    · intro m hm
      rw [(persistMask_fields st).2.2.2.1, hml] at hm
      obtain rfl := Option.some_inj.mp hm
      exact hsh

theorem Inv_set_cursor {st : WState} {H W i : Nat} (h : Inv st H W)
    (hi : i < st.total_frames) : Inv { st with current_frame := i } H W := by
  obtain ⟨hvid, _, hstore, hlayer⟩ := h
  exact ⟨hvid, hi, hstore, hlayer⟩

theorem Inv_create {st : WState} {H W : Nat} (h : Inv st H W) :
    Inv (create_new_mask st) H W := by
  obtain ⟨⟨v, hv, hT, hframes⟩, hcur, hstore, hlayer⟩ := h
  have hcv : st.current_frame < v.length := hT ▸ hcur
  have hframe : hasShape (v.getD st.current_frame []) H W :=
    hframes _ (getD_mem v st.current_frame [] hcv)
  cases hl : storeLookup st.current_masks st.current_frame with
  | some m =>
    have hm := hstore _ _ hl
    have hceq : create_new_mask st = { st with mask_layer := some m } := by
      simp only [create_new_mask, hv, hl]
    rw [hceq]
    refine ⟨⟨v, hv, hT, hframes⟩, hcur, hstore, ?_⟩
    intro m2 hm2
    obtain rfl := Option.some_inj.mp hm2
    exact hm
  | none =>
    have hz : hasShape (zeroMaskOf (v.getD st.current_frame [])) H W :=
      zeroMaskOf_shape hframe
    have hceq : create_new_mask st =
        { st with
            current_masks := storeInsert st.current_masks st.current_frame
              (zeroMaskOf (v.getD st.current_frame [])),
            mask_layer := some (zeroMaskOf (v.getD st.current_frame [])) } := by
      simp only [create_new_mask, hv, hl]
    rw [hceq]
    refine ⟨⟨v, hv, hT, hframes⟩, hcur, storeShape_insert hstore hz, ?_⟩
    intro m2 hm2
    obtain rfl := Option.some_inj.mp hm2
    exact hz

theorem Inv_change_frame {st : WState} {H W i : Nat} (h : Inv st H W)
    (hi : i < st.total_frames) : Inv (change_frame st i) H W := by
  obtain ⟨v, hv, _, _⟩ := h.1
  have hp := Inv_persistMask h
  have hi2 : i < (persistMask st).total_frames := by
    rw [(persistMask_fields st).2.1]
    exact hi
  have hmid := Inv_set_cursor hp hi2
  have hceq : change_frame st i =
      create_new_mask { persistMask st with current_frame := i } := by
    simp only [change_frame, hv]
  rw [hceq]
  exact Inv_create hmid

theorem Inv_nav {st : WState} {H W : Nat} (h : Inv st H W) (op : NavOp) :
    Inv (applyNav st op) H W := by
  have hcur : st.current_frame < st.total_frames := h.2.1
  cases op with
  | prev =>
    by_cases hg : 0 < st.current_frame
    · have hp := Inv_persistMask h
      have hi : st.current_frame - 1 < (persistMask st).total_frames := by
        rw [(persistMask_fields st).2.1]
        omega
      simp only [applyNav, prev_frame, if_pos hg]
      exact Inv_change_frame hp hi
    · simp only [applyNav, prev_frame, if_neg hg]
      exact h
  | next =>
    by_cases hg : st.current_frame < st.total_frames - 1
    · have hp := Inv_persistMask h
      have hi : st.current_frame + 1 < (persistMask st).total_frames := by
        rw [(persistMask_fields st).2.1]
        omega
      simp only [applyNav, next_frame, if_pos hg]
      exact Inv_change_frame hp hi
    · simp only [applyNav, next_frame, if_neg hg]
      exact h
  | slider v =>
    simp only [applyNav, set_slider]
    exact Inv_change_frame h (by omega)

theorem Inv_clear {st : WState} {H W : Nat} (h : Inv st H W) :
    Inv (clear_current_mask st) H W := by
  obtain ⟨⟨v, hv, hT, hframes⟩, hcur, hstore, hlayer⟩ := h
  have hcv : st.current_frame < v.length := hT ▸ hcur
  have hz : hasShape (zeroMaskOf (v.getD st.current_frame [])) H W :=
    zeroMaskOf_shape (hframes _ (getD_mem v st.current_frame [] hcv))
  have hceq : clear_current_mask st =
      create_new_mask
        { st with
            current_masks := storeInsert st.current_masks st.current_frame
              (zeroMaskOf (v.getD st.current_frame [])) } := by
    simp only [clear_current_mask, hv]
  rw [hceq]
  exact Inv_create ⟨⟨v, hv, hT, hframes⟩, hcur, storeShape_insert hstore hz, hlayer⟩

theorem Inv_copy_from_previous {st : WState} {H W : Nat} (h : Inv st H W) :
    Inv (copy_from_previous st) H W := by
  obtain ⟨⟨v, hv, hT, hframes⟩, hcur, hstore, hlayer⟩ := h
  by_cases hg : 0 < st.current_frame
  · cases hl : storeLookup st.current_masks (st.current_frame - 1) with
    | some m =>
      have hm := hstore _ _ hl
      have hceq : copy_from_previous st =
          create_new_mask
            { st with current_masks := storeInsert st.current_masks st.current_frame m } := by
        simp only [copy_from_previous, if_pos hg, hl]
      rw [hceq]
      exact Inv_create ⟨⟨v, hv, hT, hframes⟩, hcur, storeShape_insert hstore hm, hlayer⟩
    | none =>
      have hceq : copy_from_previous st = st := by
        simp only [copy_from_previous, if_pos hg, hl]
      rw [hceq]
      exact ⟨⟨v, hv, hT, hframes⟩, hcur, hstore, hlayer⟩
  · have hceq : copy_from_previous st = st := by
      simp only [copy_from_previous, if_neg hg]
    rw [hceq]
    exact ⟨⟨v, hv, hT, hframes⟩, hcur, hstore, hlayer⟩

theorem Inv_copy_to_next {st : WState} {H W : Nat} (h : Inv st H W) :
    Inv (copy_to_next st) H W := by
  obtain ⟨⟨v, hv, hT, hframes⟩, hcur, hstore, hlayer⟩ := h
  by_cases hg : st.current_frame < st.total_frames - 1
  · cases hl : storeLookup st.current_masks st.current_frame with
    | some m =>
      have hm := hstore _ _ hl
      have hceq : copy_to_next st =
          { st with current_masks :=
              storeInsert st.current_masks (st.current_frame + 1) m } := by
        simp only [copy_to_next, if_pos hg, hl]
      rw [hceq]
      exact ⟨⟨v, hv, hT, hframes⟩, hcur, storeShape_insert hstore hm, hlayer⟩
    | none =>
      have hceq : copy_to_next st = st := by
        simp only [copy_to_next, if_pos hg, hl]
      rw [hceq]
      exact ⟨⟨v, hv, hT, hframes⟩, hcur, hstore, hlayer⟩
  · have hceq : copy_to_next st = st := by
      simp only [copy_to_next, if_neg hg]
    rw [hceq]
    exact ⟨⟨v, hv, hT, hframes⟩, hcur, hstore, hlayer⟩

/-- The shape invariant holds for the concrete state `st5cx`. -/
theorem Inv_st5cx : Inv st5cx 1 1 := by
  refine ⟨⟨[[[5]]], rfl, rfl, by decide⟩, by decide, ?_, ?_⟩
  · intro i m hm
    have hmem := storeLookup_mem hm
    have h2 : (i, m) = (0, ([[0]] : Mask)) := by
      simpa [st5cx] using hmem
    injection h2 with h3 h4
    subst h4
    decide
  · intro m hm
    nomatch hm

/-- C5 counterexample (claim as stated): `st5cx` (1x1 frames, matching zero
mask, no layer) satisfies the shape invariant, but loading `doc5cx` (a
well-formed 2x2 mask for frame 0) succeeds without any shape check and
leaves a state violating it. -/
theorem c5_shape_invariant_counterexample :
    Inv st5cx 1 1 ∧ ¬ Inv (load_masks st5cx (some doc5cx)).1 1 1 := by
  refine ⟨Inv_st5cx, ?_⟩
  intro hInv
  have hstore := hInv.2.2.1
  have h1 : storeLookup (load_masks st5cx (some doc5cx)).1.current_masks 0 =
      some [[1, 2], [3, 4]] := by decide
  exact absurd (hstore 0 [[1, 2], [3, 4]] h1) (by decide)

/-- C5 (amended): the shape invariant — every stored mask and the layer
data have the common video-frame shape — is preserved by every
store-mutating widget operation other than `load_masks`: mask creation,
clearing, copying between frames, the paint handler, and frame navigation.
`load_masks` performs no shape validation and can break it (see the
counterexample). -/
theorem c5_shape_invariant_ops (st : WState) (H W : Nat) (op : MaskOp)
    (h : Inv st H W) : Inv (applyMaskOp st op) H W := by
  cases op with
  | create => exact Inv_create h
  | clear => exact Inv_clear h
  | copyPrev => exact Inv_copy_from_previous h
  | copyNext => exact Inv_copy_to_next h
  | paint => exact Inv_persistMask h
  | nav op => exact Inv_nav h op

/-- C5 witness: the invariant preservation applied to `st5cx` and
`create_new_mask`. -/
theorem c5_shape_invariant_ops_witness : Inv (applyMaskOp st5cx MaskOp.create) 1 1 :=
  c5_shape_invariant_ops st5cx 1 1 MaskOp.create Inv_st5cx

end UsgMasker
